import Mathlib

set_option maxHeartbeats 1000000

namespace LeadsetAdmin

/-! Shallow embedding of the lead-allocation and order-lifecycle engine.

The engine lives in the order route handlers, the automation dispatcher and
the lead route handlers, all speaking to a sqlite store through a
`transaction` wrapper that issues `BEGIN`/`COMMIT`/`ROLLBACK`.  Machine
integers of the source are modelled as `Nat`/`Int` (sqlite `INTEGER` ids and
caps never overflow in the modelled ranges), timestamps as `Nat`, and every
fallible operation returns an `Except`. -/

/-- Lead status values, mirroring the CHECK constraint on `leads.status`. -/
inductive LeadStatus
  | unassigned
  | assigned
  | fulfilled
deriving DecidableEq, Repr, Inhabited

/-- Order status values, mirroring the CHECK constraint on `orders.status`. -/
inductive OrderStatus
  | pending
  | fulfilled
  | cancelled
deriving DecidableEq, Repr, Inhabited

/-- A row of the `leads` table. -/
structure Lead where
  id : Nat
  name : String
  email : String
  phone : Option String
  state : String
  status : LeadStatus
  orderId : Option Nat
  createdAt : Nat
  updatedAt : Nat
deriving DecidableEq, Repr, Inhabited

/-- A row of the `orders` table. -/
structure Order where
  id : Nat
  customerName : String
  customerEmail : String
  status : OrderStatus
  createdAt : Nat
  updatedAt : Nat
  fulfilledAt : Option Nat
deriving DecidableEq, Repr, Inhabited

/-- The durable sqlite store: the `leads`, `orders` and `state_caps` tables,
plus the AUTOINCREMENT counter feeding fresh order ids. -/
structure Store where
  leads : List Lead
  orders : List Order
  stateCaps : List (String × Int)
  nextOrderId : Nat
deriving DecidableEq, Repr

/-- Engine error kinds, the thrown `Error` messages of the handlers. -/
inductive EngineError
  | validationError
  | notFound
  | alreadyFulfilled
  | invalidAction
  | invalidStatus
  | storageError
deriving DecidableEq, Repr

/-- JavaScript `v || d` applied to the integer `max_leads` column
(`stateCaps[state] || 10`): `0` is falsy in JavaScript, so a configured cap
of exactly `0` falls back to the default, while any other integer (negative
included) is used as-is. -/
def jsOrInt (v : Option Int) (d : Int) : Int :=
  match v with
  | none => d
  | some x => if x = 0 then d else x

/-- JavaScript `requested_states || defaults` on an array-or-absent value:
only `null`/`undefined` are falsy; an empty array is truthy and is used
as-is. -/
def jsOrStates (v : Option (List String)) (d : List String) : List String :=
  match v with
  | none => d
  | some l => l

/-- `Object.fromEntries(capsResult.rows)[state]`: the last row for a state
wins, absent state gives `none`. -/
def capLookup (caps : List (String × Int)) (st : String) : Option Int :=
  caps.foldl (fun acc p => if p.1 = st then some p.2 else acc) none

/-- `const maxLeads = stateCaps[state] || 10`. -/
def capFor (caps : List (String × Int)) (st : String) : Int :=
  jsOrInt (capLookup caps st) 10

/-- `SELECT COUNT(*) FROM leads WHERE state = ? AND status = 'assigned'`. -/
def assignedCount (s : Store) (st : String) : Nat :=
  (s.leads.filter (fun l => decide (l.state = st ∧ l.status = .assigned))).length

/-- `leadsToAssign = Math.min(Math.max(0, maxLeads - currentCount), 5)`. -/
def toAssignFor (caps : List (String × Int)) (s : Store) (st : String) : Int :=
  min (max 0 (capFor caps st - (assignedCount s st : Int))) 5

/-- The `(created_at, id)` sort key of each currently-Unassigned lead of a
state, in table order. -/
def poolPairs (s : Store) (st : String) : List (Nat × Nat) :=
  (s.leads.filter (fun l => decide (l.state = st ∧ l.status = .unassigned))).map
    (fun l => (l.createdAt, l.id))

/-- Ascending order on `(created_at, id)` pairs.  The handler runs
`ORDER BY created_at ASC` only; sqlite scans the `created_at` index, whose
entries carry the rowid as the final key, so rows with equal `created_at`
come back in id order.  The embedding makes that deterministic tie order
explicit. -/
def keyLe (a b : Nat × Nat) : Prop :=
  a.1 < b.1 ∨ (a.1 = b.1 ∧ a.2 ≤ b.2)

instance : DecidableRel keyLe := fun a b => by
  unfold keyLe; infer_instance

instance : IsTotal (Nat × Nat) keyLe where
  total a b := by
    unfold keyLe
    rcases Nat.lt_trichotomy a.1 b.1 with h | h | h
    · exact Or.inl (Or.inl h)
    · rcases Nat.le_total a.2 b.2 with h2 | h2
      · exact Or.inl (Or.inr ⟨h, h2⟩)
      · exact Or.inr (Or.inr ⟨h.symm, h2⟩)
    · exact Or.inr (Or.inl h)

instance : IsTrans (Nat × Nat) keyLe where
  trans a b c hab hbc := by
    unfold keyLe at *
    rcases hab with h1 | ⟨h1, h1'⟩
    · rcases hbc with h2 | ⟨h2, _⟩
      · exact Or.inl (h1.trans h2)
      · exact Or.inl (h2 ▸ h1)
    · rcases hbc with h2 | ⟨h2, h2'⟩
      · exact Or.inl (h1 ▸ h2)
      · exact Or.inr ⟨h1.trans h2, h1'.trans h2'⟩

/-- `SELECT * FROM leads WHERE state = ? AND status = 'unassigned'
ORDER BY created_at ASC LIMIT ?`, projected to the selected ids. -/
def selectIds (s : Store) (st : String) (n : Nat) : List Nat :=
  ((List.insertionSort keyLe (poolPairs s st)).take n).map (fun p => p.2)

/-- `SELECT * FROM leads WHERE id = ?` (first match). -/
def findLead (s : Store) (i : Nat) : Option Lead :=
  s.leads.find? (fun l => decide (l.id = i))

/-- `SELECT * FROM orders WHERE id = ?` (first match). -/
def findOrder (s : Store) (oid : Nat) : Option Order :=
  s.orders.find? (fun o => decide (o.id = oid))

/-- `UPDATE leads SET status = 'assigned', order_id = ?, updated_at = now
WHERE id = ?`. -/
def setAssigned (oid now i : Nat) (s : Store) : Store :=
  { s with leads := s.leads.map (fun l =>
      if l.id = i then { l with status := .assigned, orderId := some oid, updatedAt := now }
      else l) }

/-- `UPDATE orders SET status = 'fulfilled', fulfilled_at = now,
updated_at = now WHERE id = ?`. -/
def setOrderFulfilled (oid now : Nat) (s : Store) : Store :=
  { s with orders := s.orders.map (fun o =>
      if o.id = oid then { o with status := .fulfilled, fulfilledAt := some now, updatedAt := now }
      else o) }

/-- `UPDATE leads SET status = 'fulfilled', updated_at = now
WHERE order_id = ?`. -/
def setLeadsFulfilled (oid now : Nat) (s : Store) : Store :=
  { s with leads := s.leads.map (fun l =>
      if l.orderId = some oid then { l with status := .fulfilled, updatedAt := now }
      else l) }

/-- `UPDATE orders SET status = 'cancelled', updated_at = now WHERE id = ?`. -/
def setOrderCancelled (oid now : Nat) (s : Store) : Store :=
  { s with orders := s.orders.map (fun o =>
      if o.id = oid then { o with status := .cancelled, updatedAt := now }
      else o) }

/-- `UPDATE leads SET status = 'unassigned', order_id = NULL,
updated_at = now WHERE order_id = ?`. -/
def revertLeads (oid now : Nat) (s : Store) : Store :=
  { s with leads := s.leads.map (fun l =>
      if l.orderId = some oid then { l with status := .unassigned, orderId := none, updatedAt := now }
      else l) }

/-- `DELETE FROM orders WHERE id = ?`. -/
def removeOrder (oid : Nat) (s : Store) : Store :=
  { s with orders := s.orders.filter (fun o => decide (¬ o.id = oid)) }

/-- Result of a transaction body: on success the value with the updated
store; on failure the error kind together with the uncommitted working
store at the point of failure (what the database file would hold were there
no rollback). -/
abbrev TxResult (α : Type) := Except (EngineError × Store) (α × Store)

/-- One primitive query against the transaction connection, with fault
injection: query number `k` of the body raises a storage error precisely
when `failAt = some k`. -/
def qstep (failAt : Option Nat) (k : Nat) (s : Store) : Except (EngineError × Store) Unit :=
  if failAt = some k then .error (.storageError, s) else .ok ()

/-- `Database.transaction` of the sqlite layer: `BEGIN`, run the body,
`COMMIT` the working store on success, `ROLLBACK` on any thrown error — the
uncommitted working store is discarded and the observable state is the
pre-transaction store. -/
def transact (body : Store → TxResult α) (s : Store) : Except EngineError α × Store :=
  match body s with
  | .ok (a, s1) => (.ok a, s1)
  | .error (e, _) => (.error e, s)

/-- The per-lead `UPDATE` loop inside the allocation pass (`for (const lead
of leadsResult.rows)`), threading the query counter. -/
def markLeads (failAt : Option Nat) (oid now : Nat) :
    List Nat → Nat → Store → Except (EngineError × Store) (Nat × Store)
  | [], c, s => .ok (c, s)
  | i :: is, c, s =>
    match qstep failAt c s with
    | .error e => .error e
    | .ok _ => markLeads failAt oid now is (c + 1) (setAssigned oid now i s)

/-- One pass of the allocation loop for a single state: count the assigned
leads, compute the headroom, select the oldest unassigned leads and mark
them assigned.  The objects pushed onto `assignedLeads` are the selected
rows with `status`/`order_id` overridden (`{ ...lead, status: 'assigned',
order_id: order.id }`), so they keep the pre-update `updated_at`. -/
def assignForState (failAt : Option Nat) (caps : List (String × Int)) (oid now : Nat)
    (st : String) (c : Nat) (s : Store) :
    Except (EngineError × Store) (Nat × Store × List Lead) :=
  match qstep failAt c s with
  | .error e => .error e
  | .ok _ =>
    let toAssign := toAssignFor caps s st
    if 0 < toAssign then
      match qstep failAt (c + 1) s with
      | .error e => .error e
      | .ok _ =>
        let ids := selectIds s st toAssign.toNat
        match markLeads failAt oid now ids (c + 2) s with
        | .error e => .error e
        | .ok (c2, s2) =>
          .ok (c2, s2, ids.map (fun i =>
            let l := (findLead s i).getD default
            { l with status := .assigned, orderId := some oid }))
    else .ok (c + 1, s, [])

/-- `for (const state of states)` — the allocation loop over the resolved
state list. -/
def allocLoop (failAt : Option Nat) (caps : List (String × Int)) (oid now : Nat) :
    List String → Nat → Store → List Lead → Except (EngineError × Store) (Store × List Lead)
  | [], _, s, acc => .ok (s, acc)
  | st :: rest, c, s, acc =>
    match assignForState failAt caps oid now st c s with
    | .error e => .error e
    | .ok (c2, s2, newLeads) => allocLoop failAt caps oid now rest c2 s2 (acc ++ newLeads)

/-- The fixed default state list of the order-creation handlers. -/
def defaultStates : List String := ["CA", "NY", "TX", "FL", "IL"]

/-- The order row inserted by `INSERT INTO orders (customer_name,
customer_email) VALUES (?, ?)`: sqlite fills the defaulted columns
(status `pending`, current timestamps) and assigns the next
AUTOINCREMENT id. -/
def newOrderOf (cn ce : String) (now : Nat) (s : Store) : Order :=
  { id := s.nextOrderId, customerName := cn, customerEmail := ce,
    status := .pending, createdAt := now, updatedAt := now, fulfilledAt := none }

/-- The store right after the order row is inserted. -/
def withNewOrder (cn ce : String) (now : Nat) (s : Store) : Store :=
  { s with orders := s.orders ++ [newOrderOf cn ce now s],
           nextOrderId := s.nextOrderId + 1 }

/-- Transaction body of `router.post('/')` / `createOrderAutomation`:
insert the order row, read it back, read the caps, then run the allocation
loop over `requested_states || defaults`. -/
def createOrderBody (failAt : Option Nat) (cn ce : String) (rs : Option (List String))
    (now : Nat) (s : Store) : TxResult (Order × List Lead) :=
  match qstep failAt 0 s with
  | .error e => .error e
  | .ok _ =>
    let o : Order := newOrderOf cn ce now s
    let s1 : Store := withNewOrder cn ce now s
    match qstep failAt 1 s1 with
    | .error e => .error e
    | .ok _ =>
      match qstep failAt 2 s1 with
      | .error e => .error e
      | .ok _ =>
        match allocLoop failAt s1.stateCaps o.id now (jsOrStates rs defaultStates) 3 s1 [] with
        | .error e => .error e
        | .ok (s2, assigned) => .ok ((o, assigned), s2)

/-- `createOrder`: the handler validates the customer fields (JavaScript
falsiness of the empty string) before opening the transaction. -/
def createOrder (failAt : Option Nat) (cn ce : String) (rs : Option (List String))
    (now : Nat) (s : Store) : Except EngineError (Order × List Lead) × Store :=
  if cn = "" ∨ ce = "" then (.error .validationError, s)
  else transact (createOrderBody failAt cn ce rs now) s

/-- Transaction body of `router.patch('/:id/fulfill')` /
`fulfillOrderAutomation`: load the order, reject a missing or
already-fulfilled order, then mark the order and its leads fulfilled. -/
def fulfillOrderBody (failAt : Option Nat) (oid now : Nat) (s : Store) : TxResult Order :=
  match qstep failAt 0 s with
  | .error e => .error e
  | .ok _ =>
    match findOrder s oid with
    | none => .error (.notFound, s)
    | some o =>
      if o.status = .fulfilled then .error (.alreadyFulfilled, s)
      else
        match qstep failAt 1 s with
        | .error e => .error e
        | .ok _ =>
          let s1 := setOrderFulfilled oid now s
          match qstep failAt 2 s1 with
          | .error e => .error e
          | .ok _ =>
            let s2 := setLeadsFulfilled oid now s1
            match qstep failAt 3 s2 with
            | .error e => .error e
            | .ok _ => .ok ((findOrder s2 oid).getD o, s2)

/-- `fulfillOrder` — both the route handler and the `fulfill_order`
automation command run this same transaction. -/
def fulfillOrder (failAt : Option Nat) (oid now : Nat) (s : Store) :
    Except EngineError Order × Store :=
  transact (fulfillOrderBody failAt oid now) s

/-- `String.prototype.toLowerCase()` on the ASCII action strings the
dispatcher compares against. -/
def strToLower (s : String) : String := ⟨s.data.map Char.toLower⟩

/-- The four result objects `executeOneTimeRule` can return. -/
inductive RuleOutcome
  | alreadyFulfilled (o : Order)
  | fulfilled (oid : Nat)
  | alreadyCancelled (o : Order)
  | cancelled (oid : Nat)
deriving DecidableEq, Repr

/-- Transaction body of `executeOneTimeRule`: load the order, then branch
on `action.toLowerCase()`.  An already-fulfilled (resp. already-cancelled)
order is answered with an early `return` carrying a message — a successful
result, not a thrown error. -/
def oneTimeRuleBody (failAt : Option Nat) (oid : Nat) (action : String) (now : Nat)
    (s : Store) : TxResult RuleOutcome :=
  match qstep failAt 0 s with
  | .error e => .error e
  | .ok _ =>
    match findOrder s oid with
    | none => .error (.notFound, s)
    | some o =>
      if strToLower action = "fulfill" then
        if o.status = .fulfilled then .ok (.alreadyFulfilled o, s)
        else
          match qstep failAt 1 s with
          | .error e => .error e
          | .ok _ =>
            let s1 := setOrderFulfilled oid now s
            match qstep failAt 2 s1 with
            | .error e => .error e
            | .ok _ => .ok (.fulfilled oid, setLeadsFulfilled oid now s1)
      else if strToLower action = "cancel" then
        if o.status = .cancelled then .ok (.alreadyCancelled o, s)
        else
          match qstep failAt 1 s with
          | .error e => .error e
          | .ok _ =>
            let s1 := setOrderCancelled oid now s
            match qstep failAt 2 s1 with
            | .error e => .error e
            | .ok _ => .ok (.cancelled oid, revertLeads oid now s1)
      else .error (.invalidAction, s)

/-- `one_time_rule`: parameter presence is checked before the transaction
(`!orderId || !action`, with id `0` and the empty string falsy). -/
def oneTimeRule (failAt : Option Nat) (oid : Nat) (action : String) (now : Nat)
    (s : Store) : Except EngineError RuleOutcome × Store :=
  if oid = 0 ∨ action = "" then (.error .validationError, s)
  else transact (oneTimeRuleBody failAt oid action now) s

/-- Transaction body of `router.delete('/:id')` / `deleteOrderAutomation`:
load the order, revert every lead referencing it to unassigned with the
reference cleared, then delete the order row. -/
def deleteOrderBody (failAt : Option Nat) (oid now : Nat) (s : Store) : TxResult Unit :=
  match qstep failAt 0 s with
  | .error e => .error e
  | .ok _ =>
    match findOrder s oid with
    | none => .error (.notFound, s)
    | some _ =>
      match qstep failAt 1 s with
      | .error e => .error e
      | .ok _ =>
        let s1 := revertLeads oid now s
        match qstep failAt 2 s1 with
        | .error e => .error e
        | .ok _ => .ok ((), removeOrder oid s1)

/-- `deleteOrder`. -/
def deleteOrder (failAt : Option Nat) (oid now : Nat) (s : Store) :
    Except EngineError Unit × Store :=
  transact (deleteOrderBody failAt oid now) s

/-- The status-string validation list of `router.patch('/:id/status')`. -/
def parseLeadStatus (st : String) : Option LeadStatus :=
  if st = "unassigned" then some .unassigned
  else if st = "assigned" then some .assigned
  else if st = "fulfilled" then some .fulfilled
  else none

/-- `router.patch('/:id/status')`: reject a status outside the legal list;
otherwise `UPDATE leads SET status = ?, updated_at = now WHERE id = ?` (an
update matching zero rows mutates nothing and is answered 404).  The
lead's `order_id` is never touched. -/
def updateLeadStatus (lid : Nat) (stStr : String) (now : Nat) (s : Store) :
    Except EngineError (Lead × Store) :=
  match parseLeadStatus stStr with
  | none => .error .invalidStatus
  | some st =>
    if (s.leads.filter (fun l => decide (l.id = lid))).length = 0 then .error .notFound
    else
      let s1 : Store := { s with leads := s.leads.map (fun l =>
        if l.id = lid then { l with status := st, updatedAt := now } else l) }
      .ok ((s1.leads.find? (fun l => decide (l.id = lid))).getD default, s1)

/-- Freshness of a lead's order reference below the AUTOINCREMENT bound. -/
def orderIdFresh (n : Nat) (l : Lead) : Prop :=
  ∀ o, l.orderId = some o → o < n

instance (n : Nat) (l : Lead) : Decidable (orderIdFresh n l) :=
  match h : l.orderId with
  | none => isTrue (fun o ho => absurd (h ▸ ho) (by simp))
  | some k =>
    if hk : k < n then
      isTrue (fun o ho => by
        rw [h] at ho
        exact Option.some.inj ho ▸ hk)
    else
      isFalse (fun hall => hk (hall k h))

/-- Invariants sqlite maintains on every reachable database: ids are
primary keys, and AUTOINCREMENT never reuses an id, so no existing row
mentions an order id at or above the next fresh one. -/
def WellFormed (s : Store) : Prop :=
  (s.leads.map Lead.id).Nodup ∧
  (∀ l ∈ s.leads, orderIdFresh s.nextOrderId l) ∧
  (∀ o ∈ s.orders, o.id < s.nextOrderId)

instance (s : Store) : Decidable (WellFormed s) := by
  unfold WellFormed; infer_instance

/-- The ids of the leads a `createOrder` call reports as assigned (empty on
failure). -/
def assignedIds (r : Except EngineError (Order × List Lead) × Store) : List Nat :=
  match r.1 with
  | .ok (_, ls) => ls.map Lead.id
  | .error _ => []

/-- The marking applied to a selected lead row by the per-lead `UPDATE`. -/
def markLead (oid now : Nat) (l : Lead) : Lead :=
  { l with status := .assigned, orderId := some oid, updatedAt := now }

/-- Fault-free value of one allocation pass (proved to agree with
`assignForState` below): the selected ids, the store with them marked, and
the returned row objects. -/
def assignPure (caps : List (String × Int)) (oid now : Nat) (st : String) (s : Store) :
    Store × List Lead :=
  let ids := selectIds s st (toAssignFor caps s st).toNat
  (ids.foldl (fun t i => setAssigned oid now i t) s,
   ids.map (fun i => { (findLead s i).getD default with status := .assigned, orderId := some oid }))

/-- Fault-free value of the whole allocation loop (proved to agree with
`allocLoop` below). -/
def allocFrom (caps : List (String × Int)) (oid now : Nat) :
    List String → Store → Store × List Lead
  | [], s => (s, [])
  | st :: rest, s =>
    let q := assignPure caps oid now st s
    let r := allocFrom caps oid now rest q.1
    (r.1, q.2 ++ r.2)

/-- A minimal lead row for the concrete scenarios. -/
def sampleLead (i : Nat) (st : String) (created : Nat) (status : LeadStatus)
    (oid : Option Nat) : Lead :=
  { id := i, name := "n", email := "e", phone := none, state := st, status := status,
    orderId := oid, createdAt := created, updatedAt := 0 }

/-- Store with state CA explicitly capped at 0 and one unassigned CA
lead. -/
def capZeroStore : Store :=
  { leads := [sampleLead 1 "CA" 1 .unassigned none], orders := [],
    stateCaps := [("CA", 0)], nextOrderId := 1 }

/-- Store with one unassigned CA lead and no configured caps (the default
cap 10 applies). -/
def oneLeadStore : Store :=
  { leads := [sampleLead 1 "CA" 1 .unassigned none], orders := [],
    stateCaps := [], nextOrderId := 1 }

/-- Store for the concrete allocation scenario: CA capped at 2, three
unassigned CA leads created at times 1, 2 and 3. -/
def capTwoStore : Store :=
  { leads := [sampleLead 1 "CA" 1 .unassigned none, sampleLead 2 "CA" 2 .unassigned none,
              sampleLead 3 "CA" 3 .unassigned none],
    orders := [], stateCaps := [("CA", 2)], nextOrderId := 1 }

/-- Store holding an already-fulfilled order (id 1) and its fulfilled
lead. -/
def fulfilledStore : Store :=
  { leads := [sampleLead 7 "CA" 1 .fulfilled (some 1)],
    orders := [{ id := 1, customerName := "c", customerEmail := "e", status := .fulfilled,
                 createdAt := 0, updatedAt := 0, fulfilledAt := some 5 }],
    stateCaps := [], nextOrderId := 2 }

/-- Store holding an already-cancelled order (id 1). -/
def cancelledStore : Store :=
  { leads := [],
    orders := [{ id := 1, customerName := "c", customerEmail := "e", status := .cancelled,
                 createdAt := 0, updatedAt := 3, fulfilledAt := none }],
    stateCaps := [], nextOrderId := 2 }

def mixedStore : Store :=
  { leads := [sampleLead 1 "CA" 1 .unassigned none, sampleLead 9 "CA" 0 .assigned (some 1)],
    orders := [], stateCaps := [], nextOrderId := 2 }

/-- The columns of a lead row that the allocation loop reads: id, state,
created timestamp and status.  Two stores whose leads agree on these keys
are indistinguishable to the selection queries. -/
def leadKey (l : Lead) : Nat × String × Nat × LeadStatus :=
  (l.id, l.state, l.createdAt, l.status)

/-- Relation between a pre-allocation lead row and the row after
createOrder's marking pass for order `oid`: either untouched (and not
previously referencing `oid`), or it was Unassigned and is now marked. -/
def roundRel (oid now : Nat) (l m : Lead) : Prop :=
  (m = l ∧ ¬ l.orderId = some oid) ∨ (l.status = .unassigned ∧ m = markLead oid now l)

lemma markLeads_none (oid now : Nat) :
    ∀ (ids : List Nat) (c : Nat) (s : Store),
      markLeads none oid now ids c s =
        .ok (c + ids.length, ids.foldl (fun t i => setAssigned oid now i t) s)
  | [], c, s => rfl
  | i :: is, c, s => by
    simp only [markLeads, qstep, List.foldl_cons, reduceCtorEq, if_false,
      markLeads_none oid now is (c + 1) (setAssigned oid now i s)]
    simp [List.length_cons]
    omega

lemma assignForState_none (caps : List (String × Int)) (oid now : Nat) (st : String)
    (c : Nat) (s : Store) :
    ∃ c2, assignForState none caps oid now st c s =
      .ok (c2, (assignPure caps oid now st s).1, (assignPure caps oid now st s).2) := by
  unfold assignForState assignPure
  simp only [qstep, reduceCtorEq, if_false]
  by_cases h : 0 < toAssignFor caps s st
  · simp only [h, if_true, markLeads_none]
    exact ⟨_, rfl⟩
  · simp only [h, if_false]
    have hz : (toAssignFor caps s st).toNat = 0 := Int.toNat_of_nonpos (by omega)
    refine ⟨c + 1, ?_⟩
    simp [hz, selectIds]

lemma allocLoop_none (caps : List (String × Int)) (oid now : Nat) :
    ∀ (states : List String) (c : Nat) (s : Store) (acc : List Lead),
      ∃ c2 : Nat, allocLoop none caps oid now states c s acc =
        .ok ((allocFrom caps oid now states s).1,
             acc ++ (allocFrom caps oid now states s).2)
  | [], c, s, acc => ⟨c, by simp [allocLoop, allocFrom]⟩
  | st :: rest, c, s, acc => by
    obtain ⟨c2, h2⟩ := assignForState_none caps oid now st c s
    obtain ⟨c3, h3⟩ := allocLoop_none caps oid now rest c2
      (assignPure caps oid now st s).1 (acc ++ (assignPure caps oid now st s).2)
    refine ⟨c3, ?_⟩
    simp only [allocLoop, h2, allocFrom]
    rw [h3]
    simp [List.append_assoc]

/-- Fault-free `createOrder` in closed form. -/
lemma createOrder_none_eq (cn ce : String) (rs : Option (List String)) (now : Nat)
    (s : Store) (hcn : ¬ cn = "") (hce : ¬ ce = "") :
    createOrder none cn ce rs now s =
      (.ok (newOrderOf cn ce now s,
            (allocFrom s.stateCaps s.nextOrderId now (jsOrStates rs defaultStates)
              (withNewOrder cn ce now s)).2),
       (allocFrom s.stateCaps s.nextOrderId now (jsOrStates rs defaultStates)
              (withNewOrder cn ce now s)).1) := by
  unfold createOrder createOrderBody
  simp only [hcn, hce, or_self, if_false, qstep, reduceCtorEq]
  obtain ⟨c2, h2⟩ := allocLoop_none s.stateCaps s.nextOrderId now
    (jsOrStates rs defaultStates) 3 (withNewOrder cn ce now s) []
  have h2' : allocLoop none (withNewOrder cn ce now s).stateCaps
      (newOrderOf cn ce now s).id now (jsOrStates rs defaultStates) 3
      (withNewOrder cn ce now s) [] =
      .ok ((allocFrom s.stateCaps s.nextOrderId now (jsOrStates rs defaultStates)
              (withNewOrder cn ce now s)).1,
           [] ++ (allocFrom s.stateCaps s.nextOrderId now (jsOrStates rs defaultStates)
              (withNewOrder cn ce now s)).2) := h2
  simp [transact, h2']

lemma strToLower_fulfill : strToLower "fulfill" = "fulfill" := rfl

lemma strToLower_cancel : strToLower "cancel" = "cancel" := rfl

lemma cancel_ne_fulfill : ¬ ("cancel" : String) = "fulfill" := by decide

lemma transact_error_state {α : Type} (body : Store → TxResult α) (s : Store) (e : EngineError)
    (h : (transact body s).1 = .error e) : (transact body s).2 = s := by
  cases hb : body s with
  | ok v => simp [transact, hb] at h
  | error p => simp [transact, hb]

lemma createOrderBody_none_ok (cn ce : String) (rs : Option (List String)) (now : Nat)
    (s : Store) : ∃ v, createOrderBody none cn ce rs now s = .ok v := by
  unfold createOrderBody
  simp only [qstep, reduceCtorEq, if_false]
  obtain ⟨c2, h2⟩ := allocLoop_none (withNewOrder cn ce now s).stateCaps
    (newOrderOf cn ce now s).id now (jsOrStates rs defaultStates) 3 (withNewOrder cn ce now s) []
  rw [h2]
  exact ⟨_, rfl⟩

lemma fulfillOrderBody_error_state (oid now : Nat) (s : Store) (e : EngineError) (t : Store)
    (h : fulfillOrderBody none oid now s = .error (e, t)) : t = s := by
  unfold fulfillOrderBody at h
  simp only [qstep, reduceCtorEq, if_false] at h
  cases hf : findOrder s oid <;> rw [hf] at h <;> simp at h
  · exact h.2.symm
  · split at h
    · simp only [Except.error.injEq, Prod.mk.injEq] at h
      exact h.2.symm
    · simp at h

lemma deleteOrderBody_error_state (oid now : Nat) (s : Store) (e : EngineError) (t : Store)
    (h : deleteOrderBody none oid now s = .error (e, t)) : t = s := by
  unfold deleteOrderBody at h
  simp only [qstep, reduceCtorEq, if_false] at h
  cases hf : findOrder s oid <;> rw [hf] at h <;> simp at h
  exact h.2.symm

lemma oneTimeRuleBody_error_state (oid : Nat) (act : String) (now : Nat) (s : Store)
    (e : EngineError) (t : Store)
    (h : oneTimeRuleBody none oid act now s = .error (e, t)) : t = s := by
  unfold oneTimeRuleBody at h
  simp only [qstep, reduceCtorEq, if_false] at h
  cases hf : findOrder s oid <;> rw [hf] at h <;> simp at h
  · exact h.2.symm
  · split at h
    · split at h
      · simp at h
      · simp at h
    · split at h
      · split at h
        · simp at h
        · simp at h
      · simp only [Except.error.injEq, Prod.mk.injEq] at h
        exact h.2.symm

/-- Claim C1: code evaluation at the failing input.  With state CA
explicitly capped at 0 and one unassigned CA lead, `createOrder` for CA
still assigns that lead: `stateCaps[state] || 10` treats the stored cap 0
as falsy and substitutes the default 10, so afterwards one CA lead is
Assigned although the configured cap is 0 — contradicting both the cap
invariant and the zero-cap clause of the claim. -/
theorem C1_cap_zero_eval :
    capLookup capZeroStore.stateCaps "CA" = some 0 ∧
    capFor capZeroStore.stateCaps "CA" = 10 ∧
    assignedIds (createOrder none "A" "B" (some ["CA"]) 100 capZeroStore) = [1] ∧
    assignedCount (createOrder none "A" "B" (some ["CA"]) 100 capZeroStore).2 "CA" = 1 :=
  ⟨rfl, rfl, rfl, rfl⟩

/-- Claim C2: counterexample.  `requested_states || defaults` leaves an
explicitly empty array as-is (only null/undefined are falsy in
JavaScript), so a createOrder call with an empty region list runs zero
allocation passes and assigns nothing, while the same call with the
argument absent uses the default five regions and does assign the
available CA lead — the claim's "absent or an empty sequence" behaves
differently from absent. -/
theorem C2_counterexample :
    jsOrStates (some []) defaultStates = [] ∧
    assignedIds (createOrder none "A" "B" (some []) 100 oneLeadStore) = [] ∧
    assignedIds (createOrder none "A" "B" none 100 oneLeadStore) = [1] :=
  ⟨rfl, rfl, rfl⟩

/-- Claim C2 (amended): when the requested-regions argument is absent, the
effective region list is the fixed default five (CA, NY, TX, FL, IL) and
createOrder behaves exactly as if those five had been requested in that
order; an explicitly empty sequence, by contrast, is used as-is and yields
no allocation passes. -/
theorem C2_default_regions (failAt : Option Nat) (cn ce : String) (now : Nat) (s : Store) :
    jsOrStates none defaultStates = ["CA", "NY", "TX", "FL", "IL"] ∧
    createOrder failAt cn ce none now s = createOrder failAt cn ce (some defaultStates) now s :=
  ⟨rfl, rfl⟩

/-- Claim C3: counterexample.  On an already-fulfilled order, the
`one_time_rule` command with action `fulfill` returns an ordinary success
result carrying the message object (`Order already fulfilled`) instead of
failing: the rejection is not surfaced as a failure on this path. -/
theorem C3_counterexample :
    (oneTimeRule none 1 "fulfill" 100 fulfilledStore).1 =
      .ok (.alreadyFulfilled { id := 1, customerName := "c", customerEmail := "e",
                               status := .fulfilled, createdAt := 0, updatedAt := 0,
                               fulfilledAt := some 5 }) ∧
    (oneTimeRule none 1 "fulfill" 100 fulfilledStore).2 = fulfilledStore :=
  ⟨rfl, rfl⟩

/-- Claim C3 (amended): invoking fulfill on an already-Fulfilled order
mutates nothing on any path; `fulfillOrder` (the fulfill route and the
`fulfill_order` automation command) fails with AlreadyFulfilled, while the
`one_time_rule` command with action `fulfill` does not call `fulfillOrder`
but returns an "Order already fulfilled" success result, also without
mutation. -/
theorem C3_already_fulfilled (s : Store) (oid now : Nat) (o : Order)
    (hoid : ¬ oid = 0) (hfind : findOrder s oid = some o) (hst : o.status = .fulfilled) :
    fulfillOrder none oid now s = (.error .alreadyFulfilled, s) ∧
    oneTimeRule none oid "fulfill" now s = (.ok (.alreadyFulfilled o), s) := by
  constructor
  · unfold fulfillOrder fulfillOrderBody transact
    simp [qstep, hfind, hst]
  · unfold oneTimeRule oneTimeRuleBody transact
    simp [qstep, hoid, hfind, hst, strToLower_fulfill]

/-- Claim C3: witness at a concrete already-fulfilled order. -/
theorem C3_already_fulfilled_witness :
    fulfillOrder none 1 100 fulfilledStore = (.error .alreadyFulfilled, fulfilledStore) ∧
    oneTimeRule none 1 "fulfill" 100 fulfilledStore =
      (.ok (.alreadyFulfilled { id := 1, customerName := "c", customerEmail := "e",
                                status := .fulfilled, createdAt := 0, updatedAt := 0,
                                fulfilledAt := some 5 }), fulfilledStore) :=
  C3_already_fulfilled fulfilledStore 1 100 _ (by decide) rfl rfl

/-- Claim C4: counterexample.  A Fulfilled order is not terminal for the
cancel path: `one_time_rule` with action `cancel` checks only for
already-cancelled, so on a Fulfilled order it sets the status to Cancelled
and reverts the fulfilled lead to Unassigned with its order reference
cleared. -/
theorem C4_counterexample :
    (findOrder fulfilledStore 1).map Order.status = some .fulfilled ∧
    (oneTimeRule none 1 "cancel" 100 fulfilledStore).1 = .ok (.cancelled 1) ∧
    (findOrder (oneTimeRule none 1 "cancel" 100 fulfilledStore).2 1).map Order.status =
      some .cancelled ∧
    findLead (oneTimeRule none 1 "cancel" 100 fulfilledStore).2 7 =
      some { id := 7, name := "n", email := "e", phone := none, state := "CA",
             status := .unassigned, orderId := none, createdAt := 1, updatedAt := 100 } :=
  ⟨rfl, rfl, rfl, rfl⟩

/-- Claim C4 (amended): the engine guards only the reflexive transitions —
fulfill on a Fulfilled order is rejected (or answered with an unchanged
success by `one_time_rule`) and cancel on a Cancelled order is answered
with an unchanged success, in all cases without mutation; however cancel
on a Fulfilled order does transition it to Cancelled and reverts its
leads, and fulfill on a Cancelled order does transition it to Fulfilled,
since each guard checks only its own status. -/
theorem C4_terminal_guards (s : Store) (oid now : Nat) (o : Order)
    (hoid : ¬ oid = 0) (hfind : findOrder s oid = some o) :
    (o.status = .fulfilled →
      fulfillOrder none oid now s = (.error .alreadyFulfilled, s) ∧
      oneTimeRule none oid "fulfill" now s = (.ok (.alreadyFulfilled o), s)) ∧
    (o.status = .cancelled →
      oneTimeRule none oid "cancel" now s = (.ok (.alreadyCancelled o), s)) := by
  refine ⟨fun hst => ⟨?_, ?_⟩, fun hst => ?_⟩
  · unfold fulfillOrder fulfillOrderBody transact
    simp [qstep, hfind, hst]
  · unfold oneTimeRule oneTimeRuleBody transact
    simp [qstep, hoid, hfind, hst, strToLower_fulfill]
  · unfold oneTimeRule oneTimeRuleBody transact
    simp [qstep, hoid, hfind, hst, strToLower_cancel, cancel_ne_fulfill]

/-- Claim C4: witness at a concrete fulfilled order and a concrete
cancelled order. -/
theorem C4_terminal_guards_witness :
    fulfillOrder none 1 100 fulfilledStore = (.error .alreadyFulfilled, fulfilledStore) ∧
    oneTimeRule none 1 "cancel" 100 cancelledStore =
      (.ok (.alreadyCancelled { id := 1, customerName := "c", customerEmail := "e",
                                status := .cancelled, createdAt := 0, updatedAt := 3,
                                fulfilledAt := none }), cancelledStore) :=
  ⟨((C4_terminal_guards fulfilledStore 1 100 _ (by decide) rfl).1 rfl).1,
   (C4_terminal_guards cancelledStore 1 100 _ (by decide) rfl).2 rfl⟩

/-- Claim C6: atomicity.  Every engine operation runs inside the sqlite
`transaction` wrapper, so whenever an operation reports an error — a
not-found or already-fulfilled rejection, or an injected storage failure
at any query of the body — the observable store equals the store before
the call; moreover, with no storage fault injected, the bodies of
fulfill/cancel/delete raise their logical errors before any write (the
carried working store still equals the input), and the create-order body
raises no logical error at all. -/
theorem C6_atomicity (failAt : Option Nat) (cn ce act : String) (rs : Option (List String))
    (oid now : Nat) (s : Store) :
    (∀ e, (createOrder failAt cn ce rs now s).1 = .error e →
      (createOrder failAt cn ce rs now s).2 = s) ∧
    (∀ e, (fulfillOrder failAt oid now s).1 = .error e →
      (fulfillOrder failAt oid now s).2 = s) ∧
    (∀ e, (oneTimeRule failAt oid act now s).1 = .error e →
      (oneTimeRule failAt oid act now s).2 = s) ∧
    (∀ e, (deleteOrder failAt oid now s).1 = .error e →
      (deleteOrder failAt oid now s).2 = s) ∧
    (∀ e t, fulfillOrderBody none oid now s = .error (e, t) → t = s) ∧
    (∀ e t, oneTimeRuleBody none oid act now s = .error (e, t) → t = s) ∧
    (∀ e t, deleteOrderBody none oid now s = .error (e, t) → t = s) ∧
    (∀ e t, ¬ createOrderBody none cn ce rs now s = .error (e, t)) := by
  refine ⟨?_, ?_, ?_, ?_, ?_, ?_, ?_, ?_⟩
  · intro e h
    by_cases hg : cn = "" ∨ ce = ""
    · simp [createOrder, hg]
    · unfold createOrder at h ⊢
      rw [if_neg hg] at h ⊢
      exact transact_error_state _ s e h
  · intro e h
    exact transact_error_state _ s e h
  · intro e h
    by_cases hg : oid = 0 ∨ act = ""
    · simp [oneTimeRule, hg]
    · unfold oneTimeRule at h ⊢
      rw [if_neg hg] at h ⊢
      exact transact_error_state _ s e h
  · intro e h
    exact transact_error_state _ s e h
  · exact fun e t h => fulfillOrderBody_error_state oid now s e t h
  · exact fun e t h => oneTimeRuleBody_error_state oid act now s e t h
  · exact fun e t h => deleteOrderBody_error_state oid now s e t h
  · intro e t h
    obtain ⟨v, hv⟩ := createOrderBody_none_ok cn ce rs now s
    rw [hv] at h
    simp at h

/-- Claim C6: witness — a storage failure injected at the first query of a
concrete `createOrder` aborts it with the pre-call store observable, and a
fulfill of a missing order on the same store errors with the store
unchanged. -/
theorem C6_atomicity_witness :
    (createOrder (some 0) "A" "B" (some ["CA"]) 100 oneLeadStore).1 = .error .storageError ∧
    (createOrder (some 0) "A" "B" (some ["CA"]) 100 oneLeadStore).2 = oneLeadStore ∧
    (fulfillOrder none 9999 100 oneLeadStore).1 = .error .notFound ∧
    (fulfillOrder none 9999 100 oneLeadStore).2 = oneLeadStore :=
  ⟨rfl,
   (C6_atomicity (some 0) "A" "B" "fulfill" (some ["CA"]) 9999 100 oneLeadStore).1
     .storageError rfl,
   rfl,
   (C6_atomicity none "A" "B" "fulfill" (some ["CA"]) 9999 100 oneLeadStore).2.1
     .notFound rfl⟩


lemma selectIds_mem {s : Store} {st : String} {n : Nat} {i : Nat}
    (h : i ∈ selectIds s st n) :
    ∃ l ∈ s.leads, l.id = i ∧ l.state = st ∧ l.status = .unassigned := by
  unfold selectIds at h
  simp only [List.mem_map] at h
  obtain ⟨p, hp, rfl⟩ := h
  have hp2 : p ∈ List.insertionSort keyLe (poolPairs s st) :=
    (List.take_sublist n _).mem hp
  have hp3 : p ∈ poolPairs s st := (List.perm_insertionSort keyLe _).mem_iff.mp hp2
  unfold poolPairs at hp3
  simp only [List.mem_map, List.mem_filter, decide_eq_true_eq] at hp3
  obtain ⟨l, ⟨hl, hlst, hlun⟩, rfl⟩ := hp3
  exact ⟨l, hl, rfl, hlst, hlun⟩

lemma findLead_id {s : Store} {i : Nat}
    (h : ∃ l ∈ s.leads, l.id = i) :
    ∃ l0, findLead s i = some l0 ∧ l0.id = i := by
  obtain ⟨l, hl, hid⟩ := h
  have hsome : (s.leads.find? (fun l => decide (l.id = i))).isSome :=
    List.find?_isSome.mpr ⟨l, hl, by simp [hid]⟩
  obtain ⟨l0, hl0⟩ := Option.isSome_iff_exists.mp hsome
  refine ⟨l0, hl0, ?_⟩
  have := List.find?_some hl0
  simpa using this

lemma assignPure_ids (caps : List (String × Int)) (oid now : Nat) (st : String) (s : Store) :
    (assignPure caps oid now st s).2.map Lead.id =
      selectIds s st (toAssignFor caps s st).toNat := by
  unfold assignPure
  rw [List.map_map]
  refine Eq.trans (List.map_congr_left ?_) (List.map_id _)
  intro i hi
  obtain ⟨l0, hl0, hid⟩ := findLead_id (by
    obtain ⟨l, hl, hid, _, _⟩ := selectIds_mem hi
    exact ⟨l, hl, hid⟩)
  simp [Function.comp, hl0, hid]

/-- Claim C5: counterexample.  With no configured cap for CA (so the
default 10 applies) and a single unassigned CA lead, createOrder assigns
exactly 1 lead in CA although `min(max(0, cap − assignedCount), 5) = 5`:
the actual count is additionally bounded by the size of the unassigned
pool, which the claim's formula omits. -/
theorem C5_counterexample :
    toAssignFor oneLeadStore.stateCaps oneLeadStore "CA" = 5 ∧
    assignedIds (createOrder none "A" "B" (some ["CA"]) 100 oneLeadStore) = [1] ∧
    ¬ (assignedIds (createOrder none "A" "B" (some ["CA"]) 100 oneLeadStore)).length = 5 := by
  refine ⟨by decide, rfl, by decide⟩

/-- Claim C5 (amended): in every allocation pass of createOrder for a
region, the assigned leads are exactly the first
`min(max(0, cap − currentAssignedCount), 5)` entries of the Unassigned
leads of that region sorted by created timestamp with ties broken by id
ascending — so their number is `min` of that quota and the pool size; in
the concrete scenario (CA capped at 2, leads L1/L2/L3 at t=1,2,3) exactly
L1 and L2 are assigned and L3 stays Unassigned. -/
theorem C5_allocation_selection (caps : List (String × Int)) (oid now : Nat) (st : String)
    (c : Nat) (s : Store) :
    (∀ c2 s2 sel, assignForState none caps oid now st c s = .ok (c2, s2, sel) →
      sel.map Lead.id = selectIds s st (toAssignFor caps s st).toNat ∧
      sel.length = min (toAssignFor caps s st).toNat (poolPairs s st).length ∧
      selectIds s st (toAssignFor caps s st).toNat =
        ((List.insertionSort keyLe (poolPairs s st)).take
          (toAssignFor caps s st).toNat).map Prod.snd ∧
      List.Sorted keyLe (List.insertionSort keyLe (poolPairs s st)) ∧
      List.Perm (List.insertionSort keyLe (poolPairs s st)) (poolPairs s st)) ∧
    assignedIds (createOrder none "A" "B" (some ["CA"]) 100 capTwoStore) = [1, 2] ∧
    findLead (createOrder none "A" "B" (some ["CA"]) 100 capTwoStore).2 3 =
      some (sampleLead 3 "CA" 3 .unassigned none) := by
  refine ⟨?_, rfl, rfl⟩
  intro c2 s2 sel h
  obtain ⟨c2', h'⟩ := assignForState_none caps oid now st c s
  rw [h'] at h
  obtain ⟨-, hps⟩ : c2' = c2 ∧ assignPure caps oid now st s = (s2, sel) := by
    simpa using h
  obtain ⟨hs2, hsel⟩ : (assignPure caps oid now st s).1 = s2 ∧
      (assignPure caps oid now st s).2 = sel := by
    rw [hps]; exact ⟨rfl, rfl⟩
  subst hsel
  refine ⟨assignPure_ids caps oid now st s, ?_, rfl,
    List.sorted_insertionSort keyLe _, List.perm_insertionSort keyLe _⟩
  have h1 : (assignPure caps oid now st s).2.length =
      (selectIds s st (toAssignFor caps s st).toNat).length := by
    rw [← assignPure_ids caps oid now st s, List.length_map]
  rw [h1]
  unfold selectIds
  rw [List.length_map, List.length_take, List.length_insertionSort]

/-- Claim C5: witness — the allocation pass at the concrete capped store
selects exactly the two oldest unassigned CA leads. -/
theorem C5_allocation_selection_witness :
    [ { sampleLead 1 "CA" 1 .unassigned none with
          status := LeadStatus.assigned, orderId := some 1 },
      { sampleLead 2 "CA" 2 .unassigned none with
          status := LeadStatus.assigned, orderId := some 1 } ].map Lead.id =
      selectIds capTwoStore "CA" (toAssignFor [("CA", 2)] capTwoStore "CA").toNat :=
  ((C5_allocation_selection [("CA", 2)] 1 100 "CA" 3 capTwoStore).1 7
    ((assignPure [("CA", 2)] 1 100 "CA" capTwoStore).1) _ rfl).1


/-- Claim C7: deleteOrder postcondition.  When the order does not exist
the call fails with NotFound leaving the store untouched; when it exists,
the call succeeds and afterwards no lead references the order, every lead
that referenced it before is present reverted to Unassigned with the
reference cleared, and the order row is gone. -/
theorem C7_delete_order (s : Store) (oid now : Nat) :
    (findOrder s oid = none → deleteOrder none oid now s = (.error .notFound, s)) ∧
    (∀ o, findOrder s oid = some o →
      deleteOrder none oid now s = (.ok (), removeOrder oid (revertLeads oid now s)) ∧
      (∀ l ∈ (removeOrder oid (revertLeads oid now s)).leads, ¬ l.orderId = some oid) ∧
      (∀ l ∈ s.leads, l.orderId = some oid →
        { l with status := LeadStatus.unassigned, orderId := none, updatedAt := now } ∈
          (removeOrder oid (revertLeads oid now s)).leads) ∧
      findOrder (removeOrder oid (revertLeads oid now s)) oid = none) := by
  constructor
  · intro hf
    unfold deleteOrder deleteOrderBody transact
    simp [qstep, hf]
  · intro o hf
    refine ⟨?_, ?_, ?_, ?_⟩
    · unfold deleteOrder deleteOrderBody transact
      simp [qstep, hf]
    · intro l hl
      have hl2 : l ∈ (revertLeads oid now s).leads := hl
      unfold revertLeads at hl2
      simp only [List.mem_map] at hl2
      obtain ⟨l0, hl0, rfl⟩ := hl2
      by_cases hc : l0.orderId = some oid
      · simp [hc]
      · simp [hc]
    · intro l hl href
      show _ ∈ (revertLeads oid now s).leads
      unfold revertLeads
      simp only [List.mem_map]
      exact ⟨l, hl, by simp [href]⟩
    · unfold findOrder removeOrder
      simp only
      rw [List.find?_eq_none]
      intro x hx
      have := (List.mem_filter.mp hx).2
      simpa using this

/-- Claim C7: witness — deleting a missing order fails without mutation,
deleting the concrete fulfilled order succeeds. -/
theorem C7_delete_order_witness :
    deleteOrder none 1 100 oneLeadStore = (.error .notFound, oneLeadStore) ∧
    deleteOrder none 1 100 fulfilledStore =
      (.ok (), removeOrder 1 (revertLeads 1 100 fulfilledStore)) :=
  ⟨(C7_delete_order oneLeadStore 1 100).1 rfl,
   ((C7_delete_order fulfilledStore 1 100).2 _ rfl).1⟩

lemma updateLeadStatus_eq_some (lid : Nat) (stStr : String) (now : Nat) (s : Store)
    (st : LeadStatus) (hst : parseLeadStatus stStr = some st) :
    updateLeadStatus lid stStr now s =
      if (s.leads.filter (fun l => decide (l.id = lid))).length = 0 then
        .error .notFound
      else
        .ok ((({ s with leads := s.leads.map (fun l =>
            if l.id = lid then { l with status := st, updatedAt := now } else l) } :
          Store).leads.find? (fun l => decide (l.id = lid))).getD default,
          { s with leads := s.leads.map (fun l =>
            if l.id = lid then { l with status := st, updatedAt := now } else l) }) := by
  unfold updateLeadStatus
  rw [hst]

/-- Claim C9: updateLeadStatus validation and frame.  A status outside the
legal three is rejected with InvalidStatus and nothing is mutated; on
success only the targeted lead's status and updated timestamp change — in
particular the order-reference column of every lead (the targeted one
included) is exactly as before, and orders, caps and the id counter are
untouched. -/
theorem C9_update_lead_status (lid : Nat) (stStr : String) (now : Nat) (s : Store) :
    (parseLeadStatus stStr = none → updateLeadStatus lid stStr now s = .error .invalidStatus) ∧
    (∀ st, parseLeadStatus stStr = some st →
      ((∀ l ∈ s.leads, ¬ l.id = lid) →
        updateLeadStatus lid stStr now s = .error .notFound) ∧
      (∀ lead t, updateLeadStatus lid stStr now s = .ok (lead, t) →
        t.orders = s.orders ∧ t.stateCaps = s.stateCaps ∧ t.nextOrderId = s.nextOrderId ∧
        t.leads = s.leads.map (fun l =>
          if l.id = lid then { l with status := st, updatedAt := now } else l) ∧
        t.leads.map Lead.orderId = s.leads.map Lead.orderId)) := by
  constructor
  · intro h
    unfold updateLeadStatus
    rw [h]
  · intro st hst
    constructor
    · intro hnone
      rw [updateLeadStatus_eq_some lid stStr now s st hst]
      rw [if_pos ?_]
      rw [List.length_eq_zero]
      rw [List.filter_eq_nil_iff]
      intro l hl
      simpa using hnone l hl
    · intro lead t h
      rw [updateLeadStatus_eq_some lid stStr now s st hst] at h
      split at h
      · simp at h
      · obtain ⟨-, ht⟩ : _ ∧ ({ s with leads := s.leads.map (fun l =>
            if l.id = lid then { l with status := st, updatedAt := now } else l) } : Store) = t := by
          simpa using h
        subst ht
        refine ⟨rfl, rfl, rfl, rfl, ?_⟩
        show (s.leads.map _).map Lead.orderId = _
        rw [List.map_map]
        refine List.map_congr_left ?_
        intro l hl
        by_cases hc : l.id = lid
        · simp [Function.comp, hc]
        · simp [Function.comp, hc]

/-- Claim C9: witness — an illegal status string is rejected on the
concrete store, and a legal update of the fulfilled lead to Unassigned
leaves every order reference (including its own, still pointing at the
fulfilled order) unchanged. -/
theorem C9_update_lead_status_witness :
    updateLeadStatus 7 "bogus" 100 fulfilledStore = .error .invalidStatus ∧
    ({ fulfilledStore with leads := fulfilledStore.leads.map (fun l =>
        if l.id = 7 then { l with status := LeadStatus.unassigned, updatedAt := 100 }
        else l) } : Store).leads.map Lead.orderId =
      fulfilledStore.leads.map Lead.orderId :=
  ⟨(C9_update_lead_status 7 "bogus" 100 fulfilledStore).1 rfl,
   ((((C9_update_lead_status 7 "unassigned" 100 fulfilledStore).2 .unassigned rfl).2)
      { sampleLead 7 "CA" 1 .fulfilled (some 1) with
          status := LeadStatus.unassigned, updatedAt := 100 }
      { fulfilledStore with leads := fulfilledStore.leads.map (fun l =>
          if l.id = 7 then { l with status := LeadStatus.unassigned, updatedAt := 100 }
          else l) } rfl).2.2.2.2⟩


lemma foldl_setAssigned_leads (oid now : Nat) :
    ∀ (ids : List Nat) (s : Store),
      (ids.foldl (fun t i => setAssigned oid now i t) s).leads =
        s.leads.map (fun l => if l.id ∈ ids then markLead oid now l else l)
  | [], s => by simp
  | i :: is, s => by
    rw [List.foldl_cons, foldl_setAssigned_leads oid now is (setAssigned oid now i s)]
    show (s.leads.map _).map _ = _
    rw [List.map_map]
    refine List.map_congr_left ?_
    intro l hl
    by_cases hc : l.id = i
    · by_cases hc2 : l.id ∈ is
      · simp [Function.comp, markLead, hc, hc2]
      · simp [Function.comp, markLead, hc, hc2]
    · by_cases hc2 : l.id ∈ is
      · simp [Function.comp, markLead, hc, hc2]
      · simp [Function.comp, markLead, hc, hc2]

lemma foldl_setAssigned_frame (oid now : Nat) :
    ∀ (ids : List Nat) (s : Store),
      (ids.foldl (fun t i => setAssigned oid now i t) s).orders = s.orders ∧
      (ids.foldl (fun t i => setAssigned oid now i t) s).stateCaps = s.stateCaps ∧
      (ids.foldl (fun t i => setAssigned oid now i t) s).nextOrderId = s.nextOrderId
  | [], s => ⟨rfl, rfl, rfl⟩
  | i :: is, s => by
    rw [List.foldl_cons]
    exact foldl_setAssigned_frame oid now is (setAssigned oid now i s)

lemma assignPure_store_leads (caps : List (String × Int)) (oid now : Nat) (st : String)
    (s : Store) :
    (assignPure caps oid now st s).1.leads =
      s.leads.map (fun l =>
        if l.id ∈ selectIds s st (toAssignFor caps s st).toNat then markLead oid now l
        else l) := by
  unfold assignPure
  exact foldl_setAssigned_leads oid now _ s

lemma assignPure_store_ids (caps : List (String × Int)) (oid now : Nat) (st : String)
    (s : Store) :
    (assignPure caps oid now st s).1.leads.map Lead.id = s.leads.map Lead.id := by
  rw [assignPure_store_leads, List.map_map]
  refine List.map_congr_left ?_
  intro l hl
  by_cases hc : l.id ∈ selectIds s st (toAssignFor caps s st).toNat
  · simp [Function.comp, markLead, hc]
  · simp [Function.comp, hc]

lemma allocFrom_frame (caps : List (String × Int)) (oid now : Nat) :
    ∀ (states : List String) (s : Store),
      (allocFrom caps oid now states s).1.orders = s.orders ∧
      (allocFrom caps oid now states s).1.stateCaps = s.stateCaps ∧
      (allocFrom caps oid now states s).1.nextOrderId = s.nextOrderId
  | [], s => ⟨rfl, rfl, rfl⟩
  | st :: rest, s => by
    have h1 := foldl_setAssigned_frame oid now
      (selectIds s st (toAssignFor caps s st).toNat) s
    have h2 := allocFrom_frame caps oid now rest (assignPure caps oid now st s).1
    show ((allocFrom caps oid now rest (assignPure caps oid now st s).1).1.orders = _) ∧ _ ∧ _
    exact ⟨h2.1.trans h1.1, h2.2.1.trans h1.2.1, h2.2.2.trans h1.2.2⟩

lemma selectIds_nodup {s : Store} (hnd : (s.leads.map Lead.id).Nodup) (st : String) (n : Nat) :
    (selectIds s st n).Nodup := by
  have h1 : (poolPairs s st).map (fun p => p.2) =
      (s.leads.filter (fun l => decide (l.state = st ∧ l.status = .unassigned))).map Lead.id := by
    unfold poolPairs
    rw [List.map_map]
    rfl
  have h2 : ((poolPairs s st).map (fun p : Nat × Nat => p.2)).Nodup := by
    rw [h1]
    exact hnd.sublist ((List.filter_sublist _).map Lead.id)
  have h3 : ((List.insertionSort keyLe (poolPairs s st)).map (fun p : Nat × Nat => p.2)).Nodup :=
    (((List.perm_insertionSort keyLe _).map _).nodup_iff).mpr h2
  exact h3.sublist ((List.take_sublist n _).map _)

lemma find?_id_of_mem_nodup :
    ∀ (ls : List Lead), (ls.map Lead.id).Nodup → ∀ l ∈ ls,
      ls.find? (fun x => decide (x.id = l.id)) = some l
  | [], _, l, hl => absurd hl (List.not_mem_nil l)
  | h :: t, hnd, l, hl => by
    rw [List.map_cons, List.nodup_cons] at hnd
    rcases List.mem_cons.mp hl with rfl | hlt
    · rw [List.find?_cons_of_pos _ (by simp)]
    · have hne : ¬ h.id = l.id := by
        intro he
        exact hnd.1 (he ▸ List.mem_map_of_mem Lead.id hlt)
      rw [List.find?_cons_of_neg _ (by simpa using hne)]
      exact find?_id_of_mem_nodup t hnd.2 l hlt

lemma allocFrom_spec (caps : List (String × Int)) (oid now : Nat) :
    ∀ (states : List String) (s : Store), (s.leads.map Lead.id).Nodup →
      (allocFrom caps oid now states s).1.leads.map Lead.id = s.leads.map Lead.id ∧
      (∀ l ∈ s.leads, ¬ l.status = .unassigned →
        l ∈ (allocFrom caps oid now states s).1.leads) ∧
      ((allocFrom caps oid now states s).2.map Lead.id).Nodup ∧
      (∀ i ∈ (allocFrom caps oid now states s).2.map Lead.id,
        ∃ l ∈ s.leads, l.id = i ∧ l.status = .unassigned)
  | [], s, hnd => ⟨rfl, fun l hl _ => hl, List.nodup_nil, fun i hi => absurd hi (by simp [allocFrom])⟩
  | st :: rest, s, hnd => by
    set n := (toAssignFor caps s st).toNat with hn
    set ids := selectIds s st n with hids
    have hq1leads : (assignPure caps oid now st s).1.leads =
        s.leads.map (fun l => if l.id ∈ ids then markLead oid now l else l) :=
      assignPure_store_leads caps oid now st s
    have hq1ids : (assignPure caps oid now st s).1.leads.map Lead.id = s.leads.map Lead.id :=
      assignPure_store_ids caps oid now st s
    have hq1nd : ((assignPure caps oid now st s).1.leads.map Lead.id).Nodup := by
      rw [hq1ids]; exact hnd
    obtain ⟨ih1, ih2, ih3, ih4⟩ := allocFrom_spec caps oid now rest
      (assignPure caps oid now st s).1 hq1nd
    have hcons1 : (allocFrom caps oid now (st :: rest) s).1 =
        (allocFrom caps oid now rest (assignPure caps oid now st s).1).1 := rfl
    have hcons2 : (allocFrom caps oid now (st :: rest) s).2 =
        (assignPure caps oid now st s).2 ++
          (allocFrom caps oid now rest (assignPure caps oid now st s).1).2 := rfl
    have hnotin : ∀ l ∈ s.leads, ¬ l.status = .unassigned → ¬ l.id ∈ ids := by
      intro l hl hst hin
      obtain ⟨l2, hl2, hid2, -, hun2⟩ := selectIds_mem hin
      exact hst (List.inj_on_of_nodup_map hnd hl hl2 hid2.symm ▸ hun2)
    refine ⟨?_, ?_, ?_, ?_⟩
    · rw [hcons1, ih1, hq1ids]
    · intro l hl hst
      rw [hcons1]
      refine ih2 l ?_ hst
      rw [hq1leads]
      have : (fun l => if l.id ∈ ids then markLead oid now l else l) l = l := by
        simp [hnotin l hl hst]
      exact this ▸ List.mem_map_of_mem _ hl
    · rw [hcons2, List.map_append]
      rw [List.nodup_append]
      refine ⟨?_, ih3, ?_⟩
      · rw [assignPure_ids caps oid now st s]
        exact selectIds_nodup hnd st n
      · intro i hi hi2
        rw [assignPure_ids caps oid now st s] at hi
        obtain ⟨l, hl, hid, -, hun⟩ := selectIds_mem hi
        obtain ⟨l2, hl2, hid2, hun2⟩ := ih4 i hi2
        have hml : markLead oid now l ∈ (assignPure caps oid now st s).1.leads := by
          rw [hq1leads]
          have : (fun l => if l.id ∈ ids then markLead oid now l else l) l =
              markLead oid now l := by simp [hid ▸ hi]
          exact this ▸ List.mem_map_of_mem _ hl
        have : l2 = markLead oid now l :=
          List.inj_on_of_nodup_map hq1nd hl2 hml (by simp [markLead, hid2, hid])
        rw [this] at hun2
        simp [markLead] at hun2
    · intro i hi
      rw [hcons2, List.map_append] at hi
      rcases List.mem_append.mp hi with hi | hi
      · rw [assignPure_ids caps oid now st s] at hi
        obtain ⟨l, hl, hid, -, hun⟩ := selectIds_mem hi
        exact ⟨l, hl, hid, hun⟩
      · obtain ⟨l2, hl2, hid2, hun2⟩ := ih4 i hi
        rw [hq1leads] at hl2
        obtain ⟨l0, hl0, heq⟩ := List.mem_map.mp hl2
        by_cases hc : l0.id ∈ ids
        · rw [if_pos hc] at heq
          rw [← heq] at hun2
          simp [markLead] at hun2
        · rw [if_neg hc] at heq
          subst heq
          exact ⟨l0, hl0, hid2, hun2⟩



/-- Claim C10: createOrder mutates only leads that are Unassigned at
selection time.  Every lead that is Assigned or Fulfilled before the call
is still present, byte-identical, after the call; every reported assigned
lead id belonged to an Unassigned lead of the pre-call store; and no lead
id appears twice in the returned assignedLeads sequence. -/
theorem C10_unassigned_only (s : Store) (cn ce : String) (rs : Option (List String)) (now : Nat)
    (hnd : (s.leads.map Lead.id).Nodup) (hcn : ¬ cn = "") (hce : ¬ ce = "") :
    ∀ o ls, (createOrder none cn ce rs now s).1 = .ok (o, ls) →
      (ls.map Lead.id).Nodup ∧
      (∀ l ∈ s.leads, ¬ l.status = .unassigned →
        findLead (createOrder none cn ce rs now s).2 l.id = some l) ∧
      (∀ i ∈ ls.map Lead.id, ∃ l ∈ s.leads, l.id = i ∧ l.status = .unassigned) := by
  intro o ls hok
  rw [createOrder_none_eq cn ce rs now s hcn hce] at hok ⊢
  have hls : ls = (allocFrom s.stateCaps s.nextOrderId now (jsOrStates rs defaultStates)
      (withNewOrder cn ce now s)).2 := by
    have := hok
    simp only [Except.ok.injEq, Prod.mk.injEq] at this
    exact this.2.symm
  have hleads1 : (withNewOrder cn ce now s).leads = s.leads := rfl
  have hnd1 : ((withNewOrder cn ce now s).leads.map Lead.id).Nodup := by
    rw [hleads1]; exact hnd
  obtain ⟨h1, h2, h3, h4⟩ := allocFrom_spec s.stateCaps s.nextOrderId now
    (jsOrStates rs defaultStates) (withNewOrder cn ce now s) hnd1
  rw [hleads1] at h1 h2 h4
  subst hls
  refine ⟨h3, ?_, h4⟩
  intro l hl hst
  show findLead (allocFrom s.stateCaps s.nextOrderId now (jsOrStates rs defaultStates)
      (withNewOrder cn ce now s)).1 l.id = some l
  unfold findLead
  refine find?_id_of_mem_nodup _ ?_ l (h2 l hl hst)
  rw [h1]
  exact hnd

/-- Claim C10: witness — on a concrete store holding one unassigned and
one already-assigned CA lead, createOrder assigns only the unassigned one
and the assigned lead's record (status and order reference included) is
untouched. -/
theorem C10_unassigned_only_witness :
    ([1] : List Nat).Nodup ∧
    findLead (createOrder none "A" "B" (some ["CA"]) 100 mixedStore).2 9 =
      some (sampleLead 9 "CA" 0 .assigned (some 1)) :=
  have h := C10_unassigned_only mixedStore "A" "B" (some ["CA"]) 100 (by decide)
    (by decide) (by decide)
    (newOrderOf "A" "B" 100 mixedStore)
    [ { sampleLead 1 "CA" 1 .unassigned none with
          status := LeadStatus.assigned, orderId := some 2 } ] rfl
  ⟨h.1, h.2.1 (sampleLead 9 "CA" 0 .assigned (some 1)) (by simp [mixedStore]) (by decide)⟩




lemma leadKey_parts {a b : Lead} (h : leadKey a = leadKey b) :
    a.id = b.id ∧ a.state = b.state ∧ a.createdAt = b.createdAt ∧ a.status = b.status := by
  unfold leadKey at h
  simpa [Prod.ext_iff] using h

lemma filter_map_congr_of_keys {β : Type} (p : Lead → Bool) (f : Lead → β)
    (hp : ∀ a b, leadKey a = leadKey b → p a = p b)
    (hf : ∀ a b, leadKey a = leadKey b → f a = f b) :
    ∀ (ls ms : List Lead), ls.map leadKey = ms.map leadKey →
      (ls.filter p).map f = (ms.filter p).map f
  | [], [], _ => rfl
  | [], _ :: _, h => by simp at h
  | _ :: _, [], h => by simp at h
  | l :: ls, m :: ms, h => by
    simp only [List.map_cons, List.cons.injEq] at h
    obtain ⟨h1, h2⟩ := h
    rw [List.filter_cons, List.filter_cons, hp l m h1]
    by_cases hc : p m = true
    · rw [if_pos hc, if_pos hc, List.map_cons, List.map_cons,
        filter_map_congr_of_keys p f hp hf ls ms h2, hf l m h1]
    · rw [if_neg hc, if_neg hc]
      exact filter_map_congr_of_keys p f hp hf ls ms h2

lemma poolPairs_congr {s t : Store} (h : s.leads.map leadKey = t.leads.map leadKey)
    (st : String) : poolPairs s st = poolPairs t st := by
  unfold poolPairs
  refine filter_map_congr_of_keys _ _ ?_ ?_ s.leads t.leads h
  · intro a b hk
    obtain ⟨-, h2, -, h4⟩ := leadKey_parts hk
    simp [h2, h4]
  · intro a b hk
    obtain ⟨h1, -, h3, -⟩ := leadKey_parts hk
    simp [h1, h3]

lemma assignedCount_congr {s t : Store} (h : s.leads.map leadKey = t.leads.map leadKey)
    (st : String) : assignedCount s st = assignedCount t st := by
  unfold assignedCount
  have h2 := filter_map_congr_of_keys
    (fun l => decide (l.state = st ∧ l.status = .assigned)) (fun _ => ())
    (fun a b hk => by
      obtain ⟨-, h2, -, h4⟩ := leadKey_parts hk
      simp [h2, h4])
    (fun _ _ _ => rfl) s.leads t.leads h
  have h3 := congrArg List.length h2
  simpa using h3

lemma leadKey_mark_mem (ids : List Nat) (oid now : Nat) (l : Lead) :
    leadKey (if l.id ∈ ids then markLead oid now l else l) =
      (if (leadKey l).1 ∈ ids then
        ((leadKey l).1, (leadKey l).2.1, (leadKey l).2.2.1, LeadStatus.assigned)
      else leadKey l) := by
  by_cases hc : l.id ∈ ids <;> simp [leadKey, markLead, hc]

lemma marked_keys_congr {ls ms : List Lead} (h : ls.map leadKey = ms.map leadKey)
    (ids : List Nat) (oid1 now1 oid2 now2 : Nat) :
    (ls.map (fun l => if l.id ∈ ids then markLead oid1 now1 l else l)).map leadKey =
      (ms.map (fun l => if l.id ∈ ids then markLead oid2 now2 l else l)).map leadKey := by
  have h1 : ∀ (oid now : Nat) (xs : List Lead),
      (xs.map (fun l => if l.id ∈ ids then markLead oid now l else l)).map leadKey =
        (xs.map leadKey).map (fun k =>
          if k.1 ∈ ids then (k.1, k.2.1, k.2.2.1, LeadStatus.assigned) else k) := by
    intro oid now xs
    rw [List.map_map, List.map_map]
    refine List.map_congr_left ?_
    intro l _
    exact leadKey_mark_mem ids oid now l
  rw [h1 oid1 now1 ls, h1 oid2 now2 ms, h]

lemma assignPure_congr {s t : Store} (h : s.leads.map leadKey = t.leads.map leadKey)
    (caps : List (String × Int)) (oid1 now1 oid2 now2 : Nat) (st : String) :
    (assignPure caps oid1 now1 st s).2.map Lead.id =
      (assignPure caps oid2 now2 st t).2.map Lead.id ∧
    (assignPure caps oid1 now1 st s).1.leads.map leadKey =
      (assignPure caps oid2 now2 st t).1.leads.map leadKey := by
  have hta : toAssignFor caps s st = toAssignFor caps t st := by
    unfold toAssignFor
    rw [assignedCount_congr h st]
  have hsel : selectIds s st (toAssignFor caps s st).toNat =
      selectIds t st (toAssignFor caps t st).toNat := by
    unfold selectIds
    rw [poolPairs_congr h st, hta]
  constructor
  · rw [assignPure_ids, assignPure_ids, hsel]
  · rw [assignPure_store_leads, assignPure_store_leads, hsel]
    exact marked_keys_congr h _ oid1 now1 oid2 now2

lemma allocFrom_congr (caps : List (String × Int)) (oid1 now1 oid2 now2 : Nat) :
    ∀ (states : List String) (s t : Store),
      s.leads.map leadKey = t.leads.map leadKey →
      (allocFrom caps oid1 now1 states s).2.map Lead.id =
        (allocFrom caps oid2 now2 states t).2.map Lead.id ∧
      (allocFrom caps oid1 now1 states s).1.leads.map leadKey =
        (allocFrom caps oid2 now2 states t).1.leads.map leadKey
  | [], s, t, h => ⟨rfl, h⟩
  | st :: rest, s, t, h => by
    obtain ⟨hids, hkeys⟩ := assignPure_congr h caps oid1 now1 oid2 now2 st
    obtain ⟨ih1, ih2⟩ := allocFrom_congr caps oid1 now1 oid2 now2 rest
      (assignPure caps oid1 now1 st s).1 (assignPure caps oid2 now2 st t).1 hkeys
    have hc1 : allocFrom caps oid1 now1 (st :: rest) s =
        ((allocFrom caps oid1 now1 rest (assignPure caps oid1 now1 st s).1).1,
         (assignPure caps oid1 now1 st s).2 ++
           (allocFrom caps oid1 now1 rest (assignPure caps oid1 now1 st s).1).2) := rfl
    have hc2 : allocFrom caps oid2 now2 (st :: rest) t =
        ((allocFrom caps oid2 now2 rest (assignPure caps oid2 now2 st t).1).1,
         (assignPure caps oid2 now2 st t).2 ++
           (allocFrom caps oid2 now2 rest (assignPure caps oid2 now2 st t).1).2) := rfl
    rw [hc1, hc2]
    exact ⟨by rw [List.map_append, List.map_append, hids, ih1], ih2⟩

lemma forall₂_map_right {α β : Type} {R : α → β → Prop} (f : β → β) :
    ∀ {as : List α} {bs : List β}, List.Forall₂ R as bs →
      (∀ a b, a ∈ as → b ∈ bs → R a b → R a (f b)) →
      List.Forall₂ R as (bs.map f) := by
  intro as bs h
  induction h with
  | nil => intro _; exact List.Forall₂.nil
  | cons hab htail ih =>
    intro himp
    rw [List.map_cons]
    exact List.Forall₂.cons
      (himp _ _ (List.mem_cons_self _ _) (List.mem_cons_self _ _) hab)
      (ih (fun a b ha hb => himp a b (List.mem_cons_of_mem _ ha) (List.mem_cons_of_mem _ hb)))

lemma roundRel_id {oid now : Nat} :
    ∀ {as bs : List Lead}, List.Forall₂ (roundRel oid now) as bs →
      bs.map Lead.id = as.map Lead.id := by
  intro as bs h
  induction h with
  | nil => rfl
  | cons hab htail ih =>
    rw [List.map_cons, List.map_cons, ih]
    rcases hab with ⟨rfl, -⟩ | ⟨-, rfl⟩
    · rfl
    · rfl

lemma allocFrom_rel (caps : List (String × Int)) (oid now : Nat) :
    ∀ (states : List String) (s t : Store),
      (s.leads.map Lead.id).Nodup →
      List.Forall₂ (roundRel oid now) s.leads t.leads →
      List.Forall₂ (roundRel oid now) s.leads (allocFrom caps oid now states t).1.leads
  | [], s, t, hnd, hrel => hrel
  | st :: rest, s, t, hnd, hrel => by
    have hTnd : (t.leads.map Lead.id).Nodup := by
      rw [roundRel_id hrel]
      exact hnd
    have hstep : List.Forall₂ (roundRel oid now) s.leads
        ((assignPure caps oid now st t).1).leads := by
      rw [assignPure_store_leads]
      refine forall₂_map_right _ hrel ?_
      intro a b ha hb hab
      by_cases hc : b.id ∈ selectIds t st (toAssignFor caps t st).toNat
      · obtain ⟨u, hu, huid, -, huun⟩ := selectIds_mem hc
        have hub : u = b := List.inj_on_of_nodup_map hTnd hu hb huid
        rcases hab with ⟨rfl, -⟩ | ⟨-, rfl⟩
        · rw [if_pos hc]
          exact Or.inr ⟨hub ▸ huun, rfl⟩
        · exact absurd (hub ▸ huun) (by simp [markLead])
      · rw [if_neg hc]
        exact hab
    exact allocFrom_rel caps oid now rest s (assignPure caps oid now st t).1 hnd hstep

lemma revert_keys_of_rel {oid now1 now2 : Nat} :
    ∀ {ls ms : List Lead}, List.Forall₂ (roundRel oid now1) ls ms →
      (ms.map (fun m => if m.orderId = some oid then
        { m with status := .unassigned, orderId := none, updatedAt := now2 }
      else m)).map leadKey = ls.map leadKey := by
  intro ls ms h
  induction h with
  | nil => rfl
  | cons hab htail ih =>
    rw [List.map_cons, List.map_cons, List.map_cons, ih]
    rcases hab with ⟨rfl, hfr⟩ | ⟨hun, rfl⟩
    · rw [if_neg hfr]
    · rw [if_pos (by simp [markLead])]
      simp [leadKey, markLead, hun]


lemma deleteOrder_some {s : Store} {oid : Nat} (o : Order) (now : Nat)
    (hfind : findOrder s oid = some o) :
    deleteOrder none oid now s = (.ok (), removeOrder oid (revertLeads oid now s)) := by
  unfold deleteOrder deleteOrderBody transact
  simp [qstep, hfind]

/-- Claim C8: round trip.  On a well-formed store, a createOrder that
assigns leads L1..Ln, followed by deleteOrder of the created order,
followed by the identical createOrder call, assigns exactly the same lead
ids L1..Ln: the deletion restores the lead pool as the allocation queries
see it. -/
theorem C8_round_trip (s : Store) (cn ce : String) (rs : Option (List String))
    (now1 now2 now3 : Nat) (hwf : WellFormed s) (hcn : ¬ cn = "") (hce : ¬ ce = "") :
    ∀ o ls, (createOrder none cn ce rs now1 s).1 = .ok (o, ls) →
      (deleteOrder none o.id now2 (createOrder none cn ce rs now1 s).2).1 = .ok () ∧
      assignedIds (createOrder none cn ce rs now3
        (deleteOrder none o.id now2 (createOrder none cn ce rs now1 s).2).2) = ls.map Lead.id := by
  intro o ls hok
  obtain ⟨hndS, hfreshS, hordS⟩ := hwf
  rw [createOrder_none_eq cn ce rs now1 s hcn hce] at hok ⊢
  obtain ⟨ho, hls⟩ : newOrderOf cn ce now1 s = o ∧
      (allocFrom s.stateCaps s.nextOrderId now1 (jsOrStates rs defaultStates)
        (withNewOrder cn ce now1 s)).2 = ls := by
    simpa using hok
  subst ho
  subst hls
  have hoid : (newOrderOf cn ce now1 s).id = s.nextOrderId := rfl
  have hleads1 : (withNewOrder cn ce now1 s).leads = s.leads := rfl
  -- the store produced by the first createOrder
  have hS1orders : (allocFrom s.stateCaps s.nextOrderId now1 (jsOrStates rs defaultStates)
      (withNewOrder cn ce now1 s)).1.orders = s.orders ++ [newOrderOf cn ce now1 s] :=
    (allocFrom_frame s.stateCaps s.nextOrderId now1 (jsOrStates rs defaultStates)
      (withNewOrder cn ce now1 s)).1
  -- the created order is found again by the delete handler
  have hfind : findOrder (allocFrom s.stateCaps s.nextOrderId now1 (jsOrStates rs defaultStates)
      (withNewOrder cn ce now1 s)).1 s.nextOrderId = some (newOrderOf cn ce now1 s) := by
    unfold findOrder
    rw [hS1orders, List.find?_append, List.find?_eq_none.mpr ?_, Option.none_or]
    · rw [List.find?_cons_of_pos _ (by simp [newOrderOf])]
    · intro x hx
      have hlt := hordS x hx
      simp only [decide_eq_true_eq]
      omega
  have hdel := deleteOrder_some (newOrderOf cn ce now1 s) now2 hfind
  rw [hoid, hdel]
  refine ⟨rfl, ?_⟩
  -- the lead pool after delete agrees with the original on all key columns
  have hbase : List.Forall₂ (roundRel s.nextOrderId now1)
      (withNewOrder cn ce now1 s).leads (withNewOrder cn ce now1 s).leads := by
    rw [List.forall₂_same]
    intro x hx
    refine Or.inl ⟨rfl, ?_⟩
    intro hx2
    rw [hleads1] at hx
    exact absurd (hfreshS x hx s.nextOrderId hx2) (lt_irrefl _)
  have hnd1 : ((withNewOrder cn ce now1 s).leads.map Lead.id).Nodup := by
    rw [hleads1]
    exact hndS
  have hrel := allocFrom_rel s.stateCaps s.nextOrderId now1 (jsOrStates rs defaultStates)
    (withNewOrder cn ce now1 s) (withNewOrder cn ce now1 s) hnd1 hbase
  have hkeys : (removeOrder s.nextOrderId (revertLeads s.nextOrderId now2
      (allocFrom s.stateCaps s.nextOrderId now1 (jsOrStates rs defaultStates)
        (withNewOrder cn ce now1 s)).1)).leads.map leadKey = s.leads.map leadKey := by
    show ((allocFrom s.stateCaps s.nextOrderId now1 (jsOrStates rs defaultStates)
        (withNewOrder cn ce now1 s)).1.leads.map _).map leadKey = _
    rw [revert_keys_of_rel hrel, hleads1]
  -- run the second identical createOrder on the restored store
  set S2 := removeOrder s.nextOrderId (revertLeads s.nextOrderId now2
      (allocFrom s.stateCaps s.nextOrderId now1 (jsOrStates rs defaultStates)
        (withNewOrder cn ce now1 s)).1) with hS2
  have hcaps2 : S2.stateCaps = s.stateCaps := by
    rw [hS2]
    show (allocFrom s.stateCaps s.nextOrderId now1 (jsOrStates rs defaultStates)
        (withNewOrder cn ce now1 s)).1.stateCaps = s.stateCaps
    exact (allocFrom_frame s.stateCaps s.nextOrderId now1 (jsOrStates rs defaultStates)
      (withNewOrder cn ce now1 s)).2.1
  rw [createOrder_none_eq cn ce rs now3 S2 hcn hce]
  show (allocFrom S2.stateCaps S2.nextOrderId now3 (jsOrStates rs defaultStates)
      (withNewOrder cn ce now3 S2)).2.map Lead.id = _
  rw [hcaps2]
  have hkeys2 : (withNewOrder cn ce now3 S2).leads.map leadKey =
      (withNewOrder cn ce now1 s).leads.map leadKey := by
    show S2.leads.map leadKey = _
    rw [hkeys, hleads1]
  exact (allocFrom_congr s.stateCaps S2.nextOrderId now3 s.nextOrderId now1
    (jsOrStates rs defaultStates) (withNewOrder cn ce now3 S2)
    (withNewOrder cn ce now1 s) hkeys2).1


/-- Claim C8: witness — on the concrete capped store the full
create/delete/create sequence reassigns exactly leads 1 and 2. -/
theorem C8_round_trip_witness :
    (deleteOrder none 1 200 (createOrder none "A" "B" (some ["CA"]) 100 capTwoStore).2).1 =
      .ok () ∧
    assignedIds (createOrder none "A" "B" (some ["CA"]) 300
      (deleteOrder none 1 200 (createOrder none "A" "B" (some ["CA"]) 100 capTwoStore).2).2) =
      [1, 2] :=
  have h := C8_round_trip capTwoStore "A" "B" (some ["CA"]) 100 200 300 (by decide)
    (by decide) (by decide)
    (newOrderOf "A" "B" 100 capTwoStore)
    [ { sampleLead 1 "CA" 1 .unassigned none with
          status := LeadStatus.assigned, orderId := some 1 },
      { sampleLead 2 "CA" 2 .unassigned none with
          status := LeadStatus.assigned, orderId := some 1 } ] rfl
  ⟨h.1, h.2⟩

end LeadsetAdmin
